import Mathlib

/-!
Verification of the budget app's aggregation, filtering, validation,
category-management and offline-queue logic, shallowly embedded from the
TypeScript sources.

Conventions of the embedding:
* JS `number` amounts are modelled as `ℚ`, the exact decimal values the app
  manipulates; `NaN`/`Infinity` do not arise, so `Number.isFinite` holds.
* Calendar dates are modelled as `SDate` (year / zero-based month / day,
  mirroring JS `getFullYear` / `getMonth` / `getDate`); `SDate.key` is a
  monotone encoding standing in for `new Date(s).getTime()` comparisons.
* JS `Array.prototype.sort` is stable (ES2019); a stable sort's output is
  uniquely determined by the comparator, so it is modelled by the stable
  `List.insertionSort`.
-/

namespace BudgetApp

/-- A calendar date; `month` is zero-based as in JS `Date.getMonth` (0 = January). -/
structure SDate where
  year : Nat
  month : Nat
  day : Nat
deriving DecidableEq

/-- Monotone encoding of a date, standing in for `new Date(s).getTime()`. -/
def SDate.key (d : SDate) : Nat :=
  d.year * 10000 + d.month * 100 + d.day

/-- Income record (`incomeModel.ts`); attachments abstracted to their ids. -/
structure Income where
  id : String
  amount : ℚ
  label : String
  description : Option String := none
  category : String
  date : SDate
  supportingDocuments : List String := []
  createdAt : String := ""
  updatedAt : String := ""
deriving DecidableEq

/-- Expense record (`expenseModel.ts`); attachments abstracted to their ids. -/
structure Expense where
  id : String
  amount : ℚ
  label : String
  description : Option String := none
  category : String
  date : SDate
  receipts : List String := []
  createdAt : String := ""
  updatedAt : String := ""
deriving DecidableEq

/-- The `type` discriminant of a derived transaction (`transactionModel.ts`). -/
inductive TransactionType
  | income
  | expense
deriving DecidableEq

/-- Derived transaction (`transactionModel.ts`), the union view of an income
or expense record. -/
structure Transaction where
  id : String
  amount : ℚ
  label : String
  description : Option String := none
  category : String
  date : SDate
  type : TransactionType
  createdAt : String := ""
  updatedAt : String := ""
  documents : List String := []
deriving DecidableEq

/-- `createTransactionFromIncome`. -/
def createTransactionFromIncome (i : Income) : Transaction :=
  { id := i.id, amount := i.amount, label := i.label, description := i.description,
    category := i.category, date := i.date, type := TransactionType.income,
    createdAt := i.createdAt, updatedAt := i.updatedAt,
    documents := i.supportingDocuments }

/-- `createTransactionFromExpense`. -/
def createTransactionFromExpense (e : Expense) : Transaction :=
  { id := e.id, amount := e.amount, label := e.label, description := e.description,
    category := e.category, date := e.date, type := TransactionType.expense,
    createdAt := e.createdAt, updatedAt := e.updatedAt,
    documents := e.receipts }

/-- The `type` filter value `'all' | 'income' | 'expense'`. -/
inductive TypeFilter
  | all
  | income
  | expense
deriving DecidableEq

/-- `TransactionFilters` (`transactionModel.ts`); a missing (`undefined`)
field is `none`. -/
structure TransactionFilters where
  searchQuery : Option String := none
  type : Option TypeFilter := none
  categories : Option (List String) := none
  dateFrom : Option SDate := none
  dateTo : Option SDate := none
  amountMin : Option ℚ := none
  amountMax : Option ℚ := none
deriving DecidableEq

/-- JS `toLowerCase` on the characters of a string (ASCII case mapping). -/
def lowerChars (cs : List Char) : List Char := cs.map Char.toLower

/-- JS `String.prototype.includes`: the needle occurs contiguously in the hay. -/
def charsIncludes : List Char → List Char → Bool
  | [], needle => needle.isEmpty
  | c :: t, needle => needle.isPrefixOf (c :: t) || charsIncludes t needle

/-- The text the free-text filter searches:
`` `${transaction.label} ${transaction.description || ''}` ``. -/
def Transaction.searchableText (t : Transaction) : List Char :=
  t.label.toList ++ ' ' :: (t.description.getD "").toList

/-- The search-query clause of `filteredTransactions` (an empty query is
falsy in JS and disables the clause); both sides are lowercased before the
substring test. -/
def searchRejects (f : TransactionFilters) (t : Transaction) : Bool :=
  match f.searchQuery with
  | none => false
  | some q =>
    !q.toList.isEmpty &&
      !charsIncludes (lowerChars t.searchableText) (lowerChars q.toList)

/-- The type clause of `filteredTransactions`. -/
def typeRejects (f : TransactionFilters) (t : Transaction) : Bool :=
  match f.type with
  | none => false
  | some TypeFilter.all => false
  | some TypeFilter.income => t.type != TransactionType.income
  | some TypeFilter.expense => t.type != TransactionType.expense

/-- The category clause of `filteredTransactions`: an empty set is ignored. -/
def categoryRejects (f : TransactionFilters) (t : Transaction) : Bool :=
  match f.categories with
  | none => false
  | some cats => decide (0 < cats.length) && !cats.contains t.category

/-- The date-range clause of `filteredTransactions`. -/
def dateRejects (f : TransactionFilters) (t : Transaction) : Bool :=
  (match f.dateFrom with
   | none => false
   | some d => decide (t.date.key < d.key)) ||
  (match f.dateTo with
   | none => false
   | some d => decide (d.key < t.date.key))

/-- The amount-range clause of `filteredTransactions`: a transaction is
rejected when `amount < amountMin` or `amount > amountMax`. -/
def amountRejects (f : TransactionFilters) (t : Transaction) : Bool :=
  (match f.amountMin with
   | none => false
   | some lo => decide (t.amount < lo)) ||
  (match f.amountMax with
   | none => false
   | some hi => decide (hi < t.amount))

/-- The whole filter predicate of `filteredTransactions` (one early
`return false` per clause in the source). -/
def passesFilters (f : TransactionFilters) (t : Transaction) : Bool :=
  !searchRejects f t && !typeRejects f t && !categoryRejects f t &&
    !dateRejects f t && !amountRejects f t

/-- The comparator of `allTransactions`:
`(a, b) => new Date(b.date).getTime() - new Date(a.date).getTime()`,
newest first. -/
def dateGe (a b : Transaction) : Prop := b.date.key ≤ a.date.key

instance : DecidableRel dateGe :=
  fun a b => inferInstanceAs (Decidable (b.date.key ≤ a.date.key))

instance : IsTotal Transaction dateGe :=
  ⟨fun a b => Nat.le_total b.date.key a.date.key⟩

instance : IsTrans Transaction dateGe :=
  ⟨fun _ _ _ h1 h2 => Nat.le_trans h2 h1⟩

/-- `useTransactionList.allTransactions`: map both lists into transactions,
concatenate, and stable-sort by date, newest first. -/
def allTransactions (incomes : List Income) (expenses : List Expense) : List Transaction :=
  List.insertionSort dateGe
    (incomes.map createTransactionFromIncome ++ expenses.map createTransactionFromExpense)

/-- `useTransactionList.filteredTransactions`. -/
def filteredTransactions (f : TransactionFilters) (incomes : List Income)
    (expenses : List Expense) : List Transaction :=
  (allTransactions incomes expenses).filter (passesFilters f)

/-- `TransactionSummaryData` (`transactionModel.ts`). -/
structure TransactionSummaryData where
  totalIncome : ℚ
  totalExpenses : ℚ
  netBalance : ℚ
  transactionCount : Nat
  incomeCount : Nat
  expenseCount : Nat
  averageIncome : ℚ
  averageExpense : ℚ
deriving DecidableEq

/-- `reduce((sum, t) => sum + t.amount, 0)`. -/
def sumAmounts (ts : List Transaction) : ℚ :=
  ts.foldl (fun s t => s + t.amount) 0

/-- The summary block `useTransactionList` computes identically for the
current, monthly and year-to-date windows. -/
def mkSummary (ts : List Transaction) : TransactionSummaryData :=
  let incomeTransactions := ts.filter fun t => t.type == TransactionType.income
  let expenseTransactions := ts.filter fun t => t.type == TransactionType.expense
  let totalIncome := sumAmounts incomeTransactions
  let totalExpenses := sumAmounts expenseTransactions
  { totalIncome := totalIncome
    totalExpenses := totalExpenses
    netBalance := totalIncome - totalExpenses
    transactionCount := ts.length
    incomeCount := incomeTransactions.length
    expenseCount := expenseTransactions.length
    averageIncome :=
      if 0 < incomeTransactions.length then
        totalIncome / (incomeTransactions.length : ℚ)
      else 0
    averageExpense :=
      if 0 < expenseTransactions.length then
        totalExpenses / (expenseTransactions.length : ℚ)
      else 0 }

/-- `useTransactionList.summaryData`. -/
def summaryData (f : TransactionFilters) (incomes : List Income)
    (expenses : List Expense) : TransactionSummaryData :=
  mkSummary (filteredTransactions f incomes expenses)

/-- The month window of `monthlyData`; `currentMonth` / `currentYear` come
from the wall clock (`new Date().getMonth()` is zero-based). -/
def monthlyTransactions (currentMonth currentYear : Nat) (f : TransactionFilters)
    (incomes : List Income) (expenses : List Expense) : List Transaction :=
  (filteredTransactions f incomes expenses).filter fun t =>
    t.date.month == currentMonth && t.date.year == currentYear

/-- `useTransactionList.monthlyData`. -/
def monthlyData (currentMonth currentYear : Nat) (f : TransactionFilters)
    (incomes : List Income) (expenses : List Expense) : TransactionSummaryData :=
  mkSummary (monthlyTransactions currentMonth currentYear f incomes expenses)

/-- The year window of `yearToDateData`. -/
def ytdTransactions (currentYear : Nat) (f : TransactionFilters)
    (incomes : List Income) (expenses : List Expense) : List Transaction :=
  (filteredTransactions f incomes expenses).filter fun t => t.date.year == currentYear

/-- `useTransactionList.yearToDateData`. -/
def yearToDateData (currentYear : Nat) (f : TransactionFilters)
    (incomes : List Income) (expenses : List Expense) : TransactionSummaryData :=
  mkSummary (ytdTransactions currentYear f incomes expenses)

/-- Coherence of one summary with the list it was computed from: the counts
partition the list by `type`, and each total sums exactly the amounts of the
transactions counted on its side. -/
def SummaryAgrees (s : TransactionSummaryData) (ts : List Transaction) : Prop :=
  s.transactionCount = s.incomeCount + s.expenseCount ∧
  s.incomeCount = (ts.filter fun t => t.type == TransactionType.income).length ∧
  s.expenseCount = (ts.filter fun t => t.type == TransactionType.expense).length ∧
  s.totalIncome =
    ((ts.filter fun t => t.type == TransactionType.income).map fun t => t.amount).sum ∧
  s.totalExpenses =
    ((ts.filter fun t => t.type == TransactionType.expense).map fun t => t.amount).sum

theorem foldl_add_amounts (l : List Transaction) (a : ℚ) :
    l.foldl (fun s t => s + t.amount) a = a + (l.map fun t => t.amount).sum := by
  induction l generalizing a with
  | nil => simp
  | cons t l ih => simp [ih, add_assoc]

theorem sumAmounts_eq_sum_map (l : List Transaction) :
    sumAmounts l = (l.map fun t => t.amount).sum := by
  simpa using foldl_add_amounts l 0

theorem length_type_split (ts : List Transaction) :
    ts.length = (ts.filter fun t => t.type == TransactionType.income).length +
      (ts.filter fun t => t.type == TransactionType.expense).length := by
  induction ts with
  | nil => rfl
  | cons t ts ih =>
    cases h : t.type <;> simp [List.filter_cons, h, ih] <;> omega

theorem mkSummary_agrees (ts : List Transaction) : SummaryAgrees (mkSummary ts) ts :=
  ⟨length_type_split ts, rfl, rfl, sumAmounts_eq_sum_map _, sumAmounts_eq_sum_map _⟩

/-- Claim C1: in the summary computed by `useTransactionList`,
`netBalance = totalIncome - totalExpenses`, and each average is the
corresponding total divided by the corresponding count when that count is
positive, and `0` when the count is zero. -/
theorem C1_summary_totals (f : TransactionFilters) (incomes : List Income)
    (expenses : List Expense) :
    (summaryData f incomes expenses).netBalance =
        (summaryData f incomes expenses).totalIncome -
          (summaryData f incomes expenses).totalExpenses ∧
    (summaryData f incomes expenses).averageIncome =
        (if 0 < (summaryData f incomes expenses).incomeCount then
          (summaryData f incomes expenses).totalIncome /
            ((summaryData f incomes expenses).incomeCount : ℚ)
        else 0) ∧
    (summaryData f incomes expenses).averageExpense =
        (if 0 < (summaryData f incomes expenses).expenseCount then
          (summaryData f incomes expenses).totalExpenses /
            ((summaryData f incomes expenses).expenseCount : ℚ)
        else 0) :=
  ⟨rfl, rfl, rfl⟩

/-- Claim C2, amended: the merged transaction list is sorted by date in
non-strictly descending order (`dateGe` between consecutive elements). -/
theorem C2_sorted_date_descending (incomes : List Income) (expenses : List Expense) :
    List.Chain' dateGe (allTransactions incomes expenses) :=
  List.Pairwise.chain' (List.sorted_insertionSort dateGe _)

/-- An income dated 2024-01-01. -/
def salaryJanFirst : Income :=
  { id := "i1", amount := 100, label := "Salary", category := "Salary",
    date := ⟨2024, 0, 1⟩ }

/-- An expense dated the same day, 2024-01-01. -/
def groceriesJanFirst : Expense :=
  { id := "e1", amount := 40, label := "Groceries", category := "Food",
    date := ⟨2024, 0, 1⟩ }

/-- Claim C2, as stated, is false: with an income and an expense on the same
date the merged list is not STRICTLY descending, its two dates being equal. -/
theorem C2_counterexample_equal_dates :
    ¬ List.Chain' (fun a b => b.date.key < a.date.key)
        (allTransactions [salaryJanFirst] [groceriesJanFirst]) := by
  intro h
  have hlist : allTransactions [salaryJanFirst] [groceriesJanFirst] =
      [createTransactionFromIncome salaryJanFirst,
        createTransactionFromExpense groceriesJanFirst] := rfl
  rw [hlist] at h
  exact absurd (List.chain'_cons.mp h).1 (by decide)

/-- Claim C9: each of the three summaries (overall, monthly, year-to-date)
satisfies `transactionCount = incomeCount + expenseCount`, and its income
(resp. expense) total is the sum of the amounts of exactly the transactions
counted in `incomeCount` (resp. `expenseCount`), all over the same list the
summary was computed from. -/
theorem C9_summary_window_invariants (f : TransactionFilters) (incomes : List Income)
    (expenses : List Expense) (currentMonth currentYear : Nat) :
    SummaryAgrees (summaryData f incomes expenses)
        (filteredTransactions f incomes expenses) ∧
    SummaryAgrees (monthlyData currentMonth currentYear f incomes expenses)
        (monthlyTransactions currentMonth currentYear f incomes expenses) ∧
    SummaryAgrees (yearToDateData currentYear f incomes expenses)
        (ytdTransactions currentYear f incomes expenses) :=
  ⟨mkSummary_agrees _, mkSummary_agrees _, mkSummary_agrees _⟩

/-- The income of the spec's worked example: 100 on 2024-01-01. -/
def exampleIncome : Income :=
  { id := "i2", amount := 100, label := "Income", category := "Salary",
    date := ⟨2024, 0, 1⟩ }

/-- The expense of the spec's worked example: 40 on 2024-01-02. -/
def exampleExpense : Expense :=
  { id := "e2", amount := 40, label := "Expense", category := "Food",
    date := ⟨2024, 0, 2⟩ }

/-- Claim C8: with exactly the example income (100 on 2024-01-01) and
expense (40 on 2024-01-02), no active filters, and the clock in January
2024 (zero-based month 0), the monthly summary has `totalIncome = 100`,
`totalExpenses = 40`, `netBalance = 60` and `transactionCount = 2`. -/
theorem C8_monthly_example :
    (monthlyData 0 2024 {} [exampleIncome] [exampleExpense]).totalIncome = 100 ∧
    (monthlyData 0 2024 {} [exampleIncome] [exampleExpense]).totalExpenses = 40 ∧
    (monthlyData 0 2024 {} [exampleIncome] [exampleExpense]).netBalance = 60 ∧
    (monthlyData 0 2024 {} [exampleIncome] [exampleExpense]).transactionCount = 2 := by
  have hlist : monthlyTransactions 0 2024 {} [exampleIncome] [exampleExpense] =
      [createTransactionFromExpense exampleExpense,
        createTransactionFromIncome exampleIncome] := rfl
  have hfi : List.filter (fun t => t.type == TransactionType.income)
      [createTransactionFromExpense exampleExpense,
        createTransactionFromIncome exampleIncome] =
      [createTransactionFromIncome exampleIncome] := rfl
  have hfe : List.filter (fun t => t.type == TransactionType.expense)
      [createTransactionFromExpense exampleExpense,
        createTransactionFromIncome exampleIncome] =
      [createTransactionFromExpense exampleExpense] := rfl
  refine ⟨?_, ?_, ?_, rfl⟩ <;>
    · simp only [monthlyData, mkSummary, hlist, hfi, hfe, sumAmounts, List.foldl,
        createTransactionFromIncome, createTransactionFromExpense]
      norm_num [exampleIncome, exampleExpense]

/-- Claim C3: with a non-empty category set every transaction surviving the
filter has its category in the set; and the amount-range filter keeps a
transaction exactly when `amountMin ≤ amount ≤ amountMax`, each given bound
being inclusive. -/
theorem C3_category_and_amount_filters (incomes : List Income) (expenses : List Expense)
    (f : TransactionFilters) (cats : List String) (lo hi : ℚ)
    (hc : f.categories = some cats) (hne : cats ≠ []) :
    (∀ t ∈ filteredTransactions f incomes expenses, t.category ∈ cats) ∧
    (∀ t, t ∈ filteredTransactions { amountMin := some lo, amountMax := some hi }
          incomes expenses ↔
        t ∈ allTransactions incomes expenses ∧ lo ≤ t.amount ∧ t.amount ≤ hi) ∧
    (∀ t, t ∈ filteredTransactions { amountMin := some lo } incomes expenses ↔
        t ∈ allTransactions incomes expenses ∧ lo ≤ t.amount) ∧
    (∀ t, t ∈ filteredTransactions { amountMax := some hi } incomes expenses ↔
        t ∈ allTransactions incomes expenses ∧ t.amount ≤ hi) := by
  refine ⟨?_, ?_, ?_, ?_⟩
  · intro t ht
    rw [filteredTransactions, List.mem_filter] at ht
    have hp := ht.2
    rw [passesFilters] at hp
    simp only [Bool.and_eq_true, Bool.not_eq_true'] at hp
    have hcat : categoryRejects f t = false := hp.1.1.2
    simp only [categoryRejects, hc] at hcat
    by_contra hmem
    have hcon : cats.contains t.category = false := by
      rw [Bool.eq_false_iff]
      intro h
      exact hmem (List.elem_iff.mp h)
    rw [hcon] at hcat
    simp [List.length_pos.mpr hne] at hcat
  all_goals
    intro t
    simp [filteredTransactions, List.mem_filter, passesFilters, searchRejects, typeRejects,
      categoryRejects, dateRejects, amountRejects, not_lt, and_assoc]

/-- Concrete instance of the C3 filter properties. -/
theorem C3_filters_witness :
    (∀ t ∈ filteredTransactions { categories := some ["Food"] } [exampleIncome]
        [exampleExpense], t.category ∈ ["Food"]) ∧
    (∀ t, t ∈ filteredTransactions { amountMin := some (50 : ℚ), amountMax := some 150 }
          [exampleIncome] [exampleExpense] ↔
        t ∈ allTransactions [exampleIncome] [exampleExpense] ∧
          (50 : ℚ) ≤ t.amount ∧ t.amount ≤ 150) ∧
    (∀ t, t ∈ filteredTransactions { amountMin := some (50 : ℚ) }
          [exampleIncome] [exampleExpense] ↔
        t ∈ allTransactions [exampleIncome] [exampleExpense] ∧ (50 : ℚ) ≤ t.amount) ∧
    (∀ t, t ∈ filteredTransactions { amountMax := some (150 : ℚ) }
          [exampleIncome] [exampleExpense] ↔
        t ∈ allTransactions [exampleIncome] [exampleExpense] ∧ t.amount ≤ 150) :=
  C3_category_and_amount_filters [exampleIncome] [exampleExpense]
    { categories := some ["Food"] } ["Food"] 50 150 rfl (by decide)

theorem searchRejects_query_congr (f : TransactionFilters) (q1 q2 : String)
    (t : Transaction) (hq : lowerChars q1.toList = lowerChars q2.toList) :
    searchRejects { f with searchQuery := some q1 } t =
      searchRejects { f with searchQuery := some q2 } t := by
  have hlen : q1.toList.length = q2.toList.length := by
    have h := congrArg List.length hq
    simpa only [lowerChars, List.length_map] using h
  have hqe : q1.toList.isEmpty = q2.toList.isEmpty := by
    cases h1 : q1.toList <;> cases h2 : q2.toList <;>
      rw [h1, h2] at hlen <;> simp_all
  simp only [searchRejects]
  rw [hq, hqe]

theorem searchRejects_text_congr (f : TransactionFilters) (q : String) (t1 t2 : Transaction)
    (hl : lowerChars t1.label.toList = lowerChars t2.label.toList)
    (hd : lowerChars (t1.description.getD "").toList =
      lowerChars (t2.description.getD "").toList) :
    searchRejects { f with searchQuery := some q } t1 =
      searchRejects { f with searchQuery := some q } t2 := by
  have hs : lowerChars t1.searchableText = lowerChars t2.searchableText := by
    simp only [lowerChars, List.map_append, List.map_cons] at hl hd ⊢
    simp only [Transaction.searchableText, List.map_append, List.map_cons, hl, hd]
  simp only [searchRejects]
  rw [hs]

/-- Claim C10: the free-text search is case-insensitive: queries equal up to
letter case select the same filtered list, and a transaction whose label and
description differ only in letter case is accepted or rejected identically,
because both sides are lowercased before the substring test. -/
theorem C10_search_case_insensitive (incomes : List Income) (expenses : List Expense)
    (f : TransactionFilters) (q1 q2 : String) (t1 t2 : Transaction)
    (hq : lowerChars q1.toList = lowerChars q2.toList)
    (hl : lowerChars t1.label.toList = lowerChars t2.label.toList)
    (hd : lowerChars (t1.description.getD "").toList =
      lowerChars (t2.description.getD "").toList) :
    filteredTransactions { f with searchQuery := some q1 } incomes expenses =
      filteredTransactions { f with searchQuery := some q2 } incomes expenses ∧
    searchRejects { f with searchQuery := some q1 } t1 =
      searchRejects { f with searchQuery := some q1 } t2 := by
  refine ⟨?_, searchRejects_text_congr f q1 t1 t2 hl hd⟩
  rw [filteredTransactions, filteredTransactions]
  apply List.filter_congr
  intro t _
  rw [passesFilters, passesFilters, searchRejects_query_congr f q1 q2 t hq]
  rfl

/-- A transaction labelled in upper case. -/
def foodRunUpper : Transaction :=
  { id := "t1", amount := 5, label := "FOOD Run", category := "Food",
    date := ⟨2024, 0, 3⟩, type := TransactionType.expense }

/-- The same transaction labelled in lower case. -/
def foodRunLower : Transaction :=
  { id := "t1", amount := 5, label := "food run", category := "Food",
    date := ⟨2024, 0, 3⟩, type := TransactionType.expense }

/-- Concrete instance of the C10 case-insensitivity property. -/
theorem C10_search_witness :
    filteredTransactions { searchQuery := some "FOOD" } [exampleIncome] [exampleExpense] =
      filteredTransactions { searchQuery := some "food" } [exampleIncome] [exampleExpense] ∧
    searchRejects { searchQuery := some "FOOD" } foodRunUpper =
      searchRejects { searchQuery := some "FOOD" } foodRunLower :=
  C10_search_case_insensitive [exampleIncome] [exampleExpense] {} "FOOD" "food"
    foodRunUpper foodRunLower (by decide) (by decide) (by decide)

/-- The JS whitespace class `\s` (what the regexes and
`String.prototype.trim` treat as whitespace), by code point. -/
def isJsSpace (c : Char) : Bool :=
  let n := c.toNat
  (9 ≤ n && n ≤ 13) || n == 32 || n == 160 || n == 5760 ||
    (8192 ≤ n && n ≤ 8202) || n == 8232 || n == 8233 || n == 8239 ||
    n == 8287 || n == 12288 || n == 65279

/-- The regex character class `[a-zA-Z0-9]`. -/
def isAlphanumChar (c : Char) : Bool :=
  (('a' ≤ c) && (c ≤ 'z')) || (('A' ≤ c) && (c ≤ 'Z')) || (('0' ≤ c) && (c ≤ '9'))

/-- JS `String.prototype.trim`: strip the whitespace class from both ends. -/
def trimJs (cs : List Char) : List Char :=
  ((cs.dropWhile isJsSpace).reverse.dropWhile isJsSpace).reverse

/-- The test `/^[a-zA-Z0-9\s]+$/.test(name)`: at least one character, all of
them alphanumeric or whitespace. -/
def alnumSpaceTest (cs : List Char) : Bool :=
  !cs.isEmpty && cs.all fun c => isAlphanumChar c || isJsSpace c

namespace ExpenseValidation

/-- `ValidationResult` of the expense validation module. -/
structure ValidationResult where
  isValid : Bool
  error : Option String := none
deriving DecidableEq

/-- Expense `validateAmount`. In the exact decimal model the check
`(amount.toString().split('.')[1] || '').length > 2` holds exactly when the
value is not an integer multiple of 1/100, i.e. `(amount * 100).den ≠ 1`;
`Number.isFinite` always holds for a rational. -/
def validateAmount (amount : ℚ) : ValidationResult :=
  if amount < 0 then
    { isValid := false, error := some "Amount cannot be negative" }
  else if (amount * 100).den ≠ 1 then
    { isValid := false, error := some "Amount cannot have more than 2 decimal places" }
  else { isValid := true }

/-- Expense `validateCategoryName`. JS `!name` is the empty string and
`name.trim()` strips the whitespace class. -/
def validateCategoryName (name : String) (existing : List String) : ValidationResult :=
  let cs := name.toList
  if cs = [] ∨ trimJs cs = [] then
    { isValid := false, error := some "Category name is required" }
  else if trimJs cs ≠ cs ∨ trimJs cs = [] then
    { isValid := false, error := some "Category name cannot be only spaces" }
  else if 15 < cs.length then
    { isValid := false, error := some "Category name cannot exceed 15 characters" }
  else if ¬ alnumSpaceTest cs then
    { isValid := false,
      error := some "Category name can only contain alphanumeric characters and spaces" }
  else if existing.contains name then
    { isValid := false, error := some "Category name already exists (case-sensitive)" }
  else { isValid := true }

end ExpenseValidation

namespace IncomeValidation

/-- `IncomeValidationError` (`incomeValidation.ts`). -/
structure IncomeValidationError where
  field : String
  message : String
deriving DecidableEq

/-- Income `validateAmount` for a numeric amount: the `!amount` guard cannot
fire for an actual number (`0` fails the `!== 0` side and any other number is
truthy), `isNaN` never holds for a rational, and `numAmount ≤ 0` pushes the
positivity error before the decimal-places check. -/
def validateAmount (amount : ℚ) : List IncomeValidationError :=
  (if amount ≤ 0 then
    [{ field := "amount", message := "Amount must be positive" }]
  else []) ++
  (if (amount * 100).den ≠ 1 then
    [{ field := "amount", message := "Amount can have maximum 2 decimal places" }]
  else [])

/-- Income `validateCategory`: required guard returns early; the remaining
checks each push one error. -/
def validateCategory (category : String) (existing : List String) :
    List IncomeValidationError :=
  let cs := category.toList
  if cs = [] ∨ trimJs cs = [] then
    [{ field := "category", message := "Category is required" }]
  else
    (if 15 < cs.length then
      [{ field := "category", message := "Category name cannot exceed 15 characters" }]
    else []) ++
    (if ¬ alnumSpaceTest cs then
      [{ field := "category",
         message := "Category name must contain only alphanumeric characters and spaces" }]
    else []) ++
    (if existing.contains category then
      [{ field := "category", message := "Category name already exists" }]
    else [])

end IncomeValidation

/-- Claim C4: amount validation rejects negative values and values with more
than two decimal digits, and accepts otherwise — in particular any value
with exactly two decimal digits and the right sign (non-negative for
expenses, strictly positive for incomes). In the exact decimal model,
"at most 2 decimal places" is `(q * 100).den = 1`. -/
theorem C4_amount_validation (q : ℚ) :
    (ExpenseValidation.validateAmount q).isValid =
      (decide (0 ≤ q) && decide ((q * 100).den = 1)) ∧
    (IncomeValidation.validateAmount q = [] ↔ 0 < q ∧ (q * 100).den = 1) := by
  constructor
  · rw [ExpenseValidation.validateAmount]
    by_cases h1 : q < 0
    · simp [h1, not_le.mpr h1]
    · by_cases h2 : (q * 100).den = 1 <;> simp [h1, h2, not_lt.mp h1]
  · rw [IncomeValidation.validateAmount]
    by_cases h1 : q ≤ 0
    · simp [h1, not_lt.mpr h1]
    · by_cases h2 : (q * 100).den = 1 <;> simp [h1, h2, not_le.mp h1]

/-- Claim C5, as stated, is false: `"a\tb"` contains a tab, which is neither
a letter, a digit nor a space, yet both validators accept it (the regex
class `\s` admits every whitespace character, not just the space). -/
theorem C5_counterexample_tab_accepted :
    (ExpenseValidation.validateCategoryName "a\tb" []).isValid = true ∧
    IncomeValidation.validateCategory "a\tb" [] = [] ∧
    '\t' ∈ "a\tb".toList ∧ isAlphanumChar '\t' = false ∧ '\t' ≠ ' ' := by
  refine ⟨?_, ?_, ?_, ?_, ?_⟩ <;> decide

theorem alnumSpaceTest_iff (cs : List Char) :
    alnumSpaceTest cs = true ↔
      cs ≠ [] ∧ ∀ c ∈ cs, (isAlphanumChar c || isJsSpace c) = true := by
  simp [alnumSpaceTest, List.all_eq_true, List.isEmpty_iff]

/-- Claim C5 (amended): category name validation accepts exactly the names
that are non-empty, at most 15 characters, made only of letters, digits and
whitespace characters (the JS `\s` class, not just the space), and not
character-for-character equal to an existing name — so case-variants of an
existing name pass, all-whitespace names fail, and the expense variant
additionally requires the name to carry no leading or trailing whitespace. -/
theorem C5_category_name_validation (name : String) (existing : List String) :
    ((ExpenseValidation.validateCategoryName name existing).isValid = true ↔
      name.toList ≠ [] ∧ trimJs name.toList = name.toList ∧
        name.toList.length ≤ 15 ∧
        (∀ c ∈ name.toList, (isAlphanumChar c || isJsSpace c) = true) ∧
        name ∉ existing) ∧
    (IncomeValidation.validateCategory name existing = [] ↔
      trimJs name.toList ≠ [] ∧ name.toList.length ≤ 15 ∧
        (∀ c ∈ name.toList, (isAlphanumChar c || isJsSpace c) = true) ∧
        name ∉ existing) := by
  constructor
  · simp only [ExpenseValidation.validateCategoryName]
    by_cases h1 : name.toList = [] ∨ trimJs name.toList = []
    · refine iff_of_false (by rw [if_pos h1]; simp) ?_
      rintro ⟨hcs, htr, _, _, _⟩
      rcases h1 with h | h
      · exact hcs h
      · rw [htr] at h
        exact hcs h
    · by_cases h2 : trimJs name.toList ≠ name.toList ∨ trimJs name.toList = []
      · refine iff_of_false (by rw [if_neg h1, if_pos h2]; simp) ?_
        rintro ⟨hcs, htr, _, _, _⟩
        rcases h2 with h | h
        · exact h htr
        · rw [htr] at h
          exact hcs h
      · by_cases h3 : 15 < name.toList.length
        · refine iff_of_false (by rw [if_neg h1, if_neg h2, if_pos h3]; simp) ?_
          rintro ⟨_, _, hlen, _, _⟩
          exact absurd h3 (not_lt.mpr hlen)
        · by_cases h4 : alnumSpaceTest name.toList = true
          · by_cases h5 : existing.contains name = true
            · refine iff_of_false
                (by rw [if_neg h1, if_neg h2, if_neg h3, if_neg (not_not_intro h4),
                  if_pos h5]; simp) ?_
              rintro ⟨_, _, _, _, hnin⟩
              exact hnin (List.elem_iff.mp h5)
            · refine iff_of_true
                (by rw [if_neg h1, if_neg h2, if_neg h3, if_neg (not_not_intro h4),
                  if_neg h5]) ?_
              exact ⟨(not_or.mp h1).1, not_not.mp (not_or.mp h2).1, not_lt.mp h3,
                ((alnumSpaceTest_iff name.toList).mp h4).2,
                fun hmem => h5 (List.elem_iff.mpr hmem)⟩
          · refine iff_of_false
              (by rw [if_neg h1, if_neg h2, if_neg h3, if_pos h4]; simp) ?_
            rintro ⟨hcs, _, _, hall, _⟩
            exact h4 ((alnumSpaceTest_iff name.toList).mpr ⟨hcs, hall⟩)
  · simp only [IncomeValidation.validateCategory]
    by_cases h1 : name.toList = [] ∨ trimJs name.toList = []
    · refine iff_of_false (by rw [if_pos h1]; simp) ?_
      rintro ⟨htr, _, _, _⟩
      rcases h1 with h | h
      · refine htr ?_
        rw [h]
        rfl
      · exact htr h
    · by_cases h2 : 15 < name.toList.length
      · refine iff_of_false (by rw [if_neg h1, if_pos h2]; simp) ?_
        rintro ⟨_, hlen, _, _⟩
        exact absurd h2 (not_lt.mpr hlen)
      · by_cases h3 : alnumSpaceTest name.toList = true
        · by_cases h4 : existing.contains name = true
          · refine iff_of_false
              (by rw [if_neg h1, if_neg h2, if_neg (not_not_intro h3), if_pos h4]; simp) ?_
            rintro ⟨_, _, _, hnin⟩
            exact hnin (List.elem_iff.mp h4)
          · refine iff_of_true
              (by rw [if_neg h1, if_neg h2, if_neg (not_not_intro h3), if_neg h4]; rfl) ?_
            exact ⟨(not_or.mp h1).2, not_lt.mp h2, ((alnumSpaceTest_iff name.toList).mp h3).2,
              fun hmem => h4 (List.elem_iff.mpr hmem)⟩
        · refine iff_of_false (by rw [if_neg h1, if_neg h2, if_pos h3]; simp) ?_
          rintro ⟨_, _, hall, _⟩
          have hcsne : name.toList ≠ [] := fun h => (not_or.mp h1).1 h
          exact h3 ((alnumSpaceTest_iff name.toList).mpr ⟨hcsne, hall⟩)

/-- `Category` (`categoryModel.ts`). -/
structure Category where
  id : String
  name : String
  color : String := ""
  isDefault : Bool
  createdAt : String := ""
  updatedAt : String := ""
deriving DecidableEq

/-- The client state `useCategories.deleteCategory` touches, together with
the record collections the claim is about. -/
structure AppState where
  categories : List Category
  expenses : List Expense
  incomes : List Income
deriving DecidableEq

/-- `useCategories.deleteCategory`: refuses an unknown or default category;
otherwise `categoryService.deleteCategory` removes the category document
(only `deleteDoc` on the `categories` collection) and the hook drops the
category from local state. `remoteOk` is the outcome of the remote delete
(`false` when it throws). Neither path touches expense or income records. -/
def deleteCategory (remoteOk : Bool) (s : AppState) (categoryId : String) :
    AppState × Bool :=
  match s.categories.find? (fun c => c.id == categoryId) with
  | none => (s, false)
  | some c =>
    if c.isDefault then (s, false)
    else if remoteOk then
      ({ s with categories := s.categories.filter fun c => !(c.id == categoryId) }, true)
    else (s, false)

/-- A custom (non-default) category. -/
def gymCategory : Category := { id := "c1", name := "Gym", isDefault := false }

/-- An expense referencing the custom category by name. -/
def gymExpense : Expense :=
  { id := "e9", amount := 20, label := "Gym fee", category := "Gym",
    date := ⟨2024, 0, 5⟩ }

/-- A state with one custom category and one expense referencing it. -/
def gymState : AppState :=
  { categories := [gymCategory], expenses := [gymExpense], incomes := [] }

/-- Claim C6's behaviour at the failing input: deleting the custom category
"Gym" succeeds and removes the category, yet the expense still references
"Gym" and nothing was reassigned to "Other" — the code performs no
reassignment at all. -/
theorem C6_delete_leaves_dangling_reference :
    (deleteCategory true gymState "c1").2 = true ∧
    (deleteCategory true gymState "c1").1.categories = [] ∧
    ((deleteCategory true gymState "c1").1.expenses.any fun e =>
      e.category == "Gym") = true ∧
    ((deleteCategory true gymState "c1").1.expenses.any fun e =>
      e.category == "Other") = false ∧
    (deleteCategory true gymState "c1").1.expenses = gymState.expenses ∧
    (deleteCategory true gymState "c1").1.incomes = gymState.incomes :=
  ⟨rfl, rfl, rfl, rfl, rfl, rfl⟩

/-- Offline-queue state of `expenseStorageService`: the remote `expenses`
collection, the local cache and the pending-sync queue. -/
structure StoreState where
  remote : List Expense
  cached : List Expense
  pending : List Expense
deriving DecidableEq

/-- Replace the first entry carrying the given expense's id
(the `findIndex` hit). -/
def replaceFirstById (e : Expense) : List Expense → List Expense
  | [] => []
  | x :: xs => if x.id == e.id then e :: xs else x :: replaceFirstById e xs

/-- `addPendingSyncExpense`: replace the queued entry with the same id, or
push the record at the end. -/
def addPendingSyncExpense (pending : List Expense) (e : Expense) : List Expense :=
  if pending.any fun x => x.id == e.id then replaceFirstById e pending
  else pending ++ [e]

/-- `cacheExpenseLocally`: the same replace-or-push on the cached list. -/
def cacheExpenseLocally (cached : List Expense) (e : Expense) : List Expense :=
  if cached.any fun x => x.id == e.id then replaceFirstById e cached
  else cached ++ [e]

/-- `setDoc`: create or overwrite the remote document with the expense's id. -/
def setDocById (docs : List Expense) (e : Expense) : List Expense :=
  if docs.any fun x => x.id == e.id then replaceFirstById e docs
  else docs ++ [e]

/-- `removePendingSyncExpense`: drop every queued entry with the id. -/
def removePendingSyncExpense (pending : List Expense) (expenseId : String) :
    List Expense :=
  pending.filter fun e => !(e.id == expenseId)

/-- `saveExpenseToFirestore`; `remoteOk` is whether the `setDoc` call
succeeds. On success the record is written remotely and cached; on failure
the record is queued with `addPendingSyncExpense` and the error propagates
(the returned flag is `false`). -/
def saveExpenseToFirestore (remoteOk : Bool) (e : Expense) (s : StoreState) :
    StoreState × Bool :=
  if remoteOk then
    ({ s with
        remote := setDocById s.remote e
        cached := cacheExpenseLocally s.cached e }, true)
  else
    ({ s with pending := addPendingSyncExpense s.pending e }, false)

/-- `updateExpenseInFirestore`: same shape with `updateDoc`; on failure the
record is queued and the error propagates. -/
def updateExpenseInFirestore (remoteOk : Bool) (e : Expense) (s : StoreState) :
    StoreState × Bool :=
  if remoteOk then
    ({ s with
        remote := setDocById s.remote e
        cached := cacheExpenseLocally s.cached e }, true)
  else
    ({ s with pending := addPendingSyncExpense s.pending e }, false)

/-- One iteration of `syncWithFirestore`'s loop: save, and only on success
remove the entry from the queue; a failure is caught and the entry kept. -/
def syncStep (remoteOk : Expense → Bool) (s : StoreState) (e : Expense) : StoreState :=
  let r := saveExpenseToFirestore (remoteOk e) e s
  if r.2 then { r.1 with pending := removePendingSyncExpense r.1.pending e.id }
  else r.1

/-- `syncWithFirestore`: drain the snapshot of the pending queue taken at
entry. -/
def syncWithFirestore (remoteOk : Expense → Bool) (s : StoreState) : StoreState :=
  s.pending.foldl (syncStep remoteOk) s

theorem mem_replaceFirstById_self (e : Expense) (l : List Expense)
    (h : (l.any fun x => x.id == e.id) = true) : e ∈ replaceFirstById e l := by
  induction l with
  | nil => simp at h
  | cons x xs ih =>
    cases hx : x.id == e.id with
    | true => simp [replaceFirstById, hx]
    | false =>
      have h' : (xs.any fun x => x.id == e.id) = true := by simpa [hx] using h
      simp [replaceFirstById, hx, ih h']

theorem mem_replaceFirstById_of_ne (a e : Expense) (l : List Expense)
    (ha : a ∈ l) (hne : a.id ≠ e.id) : a ∈ replaceFirstById e l := by
  induction l with
  | nil => simp at ha
  | cons x xs ih =>
    rcases List.mem_cons.mp ha with rfl | hmem
    · cases hx : a.id == e.id with
      | true => exact absurd (by simpa using hx) hne
      | false => simp [replaceFirstById, hx]
    · cases hx : x.id == e.id with
      | true => simp [replaceFirstById, hx, List.mem_cons, hmem]
      | false => simp [replaceFirstById, hx, ih hmem]

theorem map_id_replaceFirstById (e : Expense) (l : List Expense)
    (h : (l.any fun x => x.id == e.id) = true) :
    (replaceFirstById e l).map (fun x => x.id) = l.map fun x => x.id := by
  induction l with
  | nil => rfl
  | cons x xs ih =>
    cases hx : x.id == e.id with
    | true =>
      have hxe : x.id = e.id := by simpa using hx
      simp [replaceFirstById, hx, hxe]
    | false =>
      have h' : (xs.any fun x => x.id == e.id) = true := by simpa [hx] using h
      simp [replaceFirstById, hx, ih h']

theorem mem_addPendingSyncExpense_self (l : List Expense) (e : Expense) :
    e ∈ addPendingSyncExpense l e := by
  rw [addPendingSyncExpense]
  by_cases h : (l.any fun x => x.id == e.id) = true
  · rw [if_pos h]
    exact mem_replaceFirstById_self e l h
  · rw [if_neg h]
    simp

theorem map_id_addPendingSyncExpense (l : List Expense) (e : Expense)
    (h : (l.any fun x => x.id == e.id) = true) :
    (addPendingSyncExpense l e).map (fun x => x.id) = l.map fun x => x.id := by
  rw [addPendingSyncExpense, if_pos h]
  exact map_id_replaceFirstById e l h

theorem mem_addPendingSyncExpense_of_mem (a e : Expense) (l : List Expense)
    (ha : a ∈ l) (hid : a.id = e.id → a = e) : a ∈ addPendingSyncExpense l e := by
  by_cases heq : a.id = e.id
  · rw [hid heq]
    exact mem_addPendingSyncExpense_self l e
  · rw [addPendingSyncExpense]
    by_cases h : (l.any fun x => x.id == e.id) = true
    · rw [if_pos h]
      exact mem_replaceFirstById_of_ne a e l ha heq
    · rw [if_neg h]
      exact List.mem_append_left _ ha

theorem mem_pending_after_sync_loop (remoteOk : Expense → Bool) (e : Expense)
    (hfail : remoteOk e = false) :
    ∀ (snapshot : List Expense) (s : StoreState), e ∈ s.pending →
      (∀ x ∈ snapshot, x.id = e.id → x = e) →
      e ∈ (snapshot.foldl (syncStep remoteOk) s).pending := by
  intro snapshot
  induction snapshot with
  | nil =>
    intro s hs _
    simpa using hs
  | cons y ys ih =>
    intro s hs hids
    rw [List.foldl_cons]
    refine ih (syncStep remoteOk s y) ?_ fun x hx => hids x (List.mem_cons_of_mem _ hx)
    cases hok : remoteOk y with
    | true =>
      have hney : e.id ≠ y.id := by
        intro hE
        have hy : y = e := hids y (List.mem_cons_self y ys) hE.symm
        rw [hy, hfail] at hok
        exact Bool.false_ne_true hok
      simp only [syncStep, saveExpenseToFirestore, hok, if_pos, if_true,
        removePendingSyncExpense]
      simp [List.mem_filter, hs, hney]
    | false =>
      simp only [syncStep, saveExpenseToFirestore, hok, if_false, Bool.false_eq_true]
      by_cases hEy : e.id = y.id
      · have hy : y = e := hids y (List.mem_cons_self y ys) hEy.symm
        rw [hy]
        simpa using mem_addPendingSyncExpense_self s.pending e
      · simpa using mem_addPendingSyncExpense_of_mem e y s.pending hs
          fun h => absurd h hEy

/-- Claim C7: when an expense write fails, the error propagates only after
the record is queued by `addPendingSyncExpense`, which replaces a queued
record with the same id instead of duplicating it; and `syncWithFirestore`
removes an entry only after its save succeeds, so an entry whose save keeps
failing is still queued after the sync. -/
theorem C7_pending_sync_queue (e : Expense) (s : StoreState)
    (remoteOk : Expense → Bool) (he : e ∈ s.pending) (hfail : remoteOk e = false)
    (hunique : ∀ x ∈ s.pending, x.id = e.id → x = e) :
    (saveExpenseToFirestore false e s).2 = false ∧
    (saveExpenseToFirestore false e s).1.pending = addPendingSyncExpense s.pending e ∧
    (updateExpenseInFirestore false e s).2 = false ∧
    (updateExpenseInFirestore false e s).1.pending =
      addPendingSyncExpense s.pending e ∧
    e ∈ addPendingSyncExpense s.pending e ∧
    (addPendingSyncExpense s.pending e).map (fun x => x.id) =
      s.pending.map (fun x => x.id) ∧
    e ∈ (syncWithFirestore remoteOk s).pending := by
  have hany : (s.pending.any fun x => x.id == e.id) = true :=
    List.any_eq_true.mpr ⟨e, he, by simp⟩
  exact ⟨rfl, rfl, rfl, rfl, mem_addPendingSyncExpense_self _ _,
    map_id_addPendingSyncExpense _ _ hany,
    mem_pending_after_sync_loop remoteOk e hfail s.pending s he hunique⟩

/-- A store whose queue holds the example expense. -/
def examplePendingState : StoreState :=
  { remote := [], cached := [], pending := [exampleExpense] }

/-- Concrete instance of the C7 queue properties, with a remote store that
keeps failing. -/
theorem C7_pending_sync_witness :
    (saveExpenseToFirestore false exampleExpense examplePendingState).2 = false ∧
    (saveExpenseToFirestore false exampleExpense examplePendingState).1.pending =
      addPendingSyncExpense examplePendingState.pending exampleExpense ∧
    (updateExpenseInFirestore false exampleExpense examplePendingState).2 = false ∧
    (updateExpenseInFirestore false exampleExpense examplePendingState).1.pending =
      addPendingSyncExpense examplePendingState.pending exampleExpense ∧
    exampleExpense ∈ addPendingSyncExpense examplePendingState.pending exampleExpense ∧
    (addPendingSyncExpense examplePendingState.pending exampleExpense).map
        (fun x => x.id) =
      examplePendingState.pending.map (fun x => x.id) ∧
    exampleExpense ∈
      (syncWithFirestore (fun _ => false) examplePendingState).pending :=
  C7_pending_sync_queue exampleExpense examplePendingState (fun _ => false)
    (List.mem_singleton.mpr rfl) rfl
    (by
      intro x hx _
      simpa [examplePendingState] using hx)

end BudgetApp
